import Mathlib

/-!
Formal model of the CopperHead robot player (`robot.py`).

The embedding translates the two core subsystems of the source file:

* the move-decision engine (`RobotPlayer.calculate_move` together with its
  local helpers `is_safe` and `count_safe_neighbors`), and
* the session message handler (`RobotPlayer.handle_message`) and the
  connection-loss handling of the main loop (`RobotPlayer.play`).

Machine integers of the source are modelled as `Int` (grid coordinates can go
negative by one step before the bounds check) and `Nat` (counters).  The one
source of randomness, `random.random()` / `random.randint(0, 30)` consumed
once per evaluated candidate move, is modelled as two oracle streams
`draws : Nat → ℚ` (the uniform draw in `[0, 1)`) and `pens : Nat → ℤ` (the
penalty that would be subtracted), indexed by the candidate's position in the
safe-move list, exactly mirroring the per-iteration consumption of the Python
loop.  Websocket I/O is modelled as an explicit list of emitted effects.
-/

namespace Copperhead

/-- Grid width constant from `robot.py` (`GRID_WIDTH = 30`). -/
def GRID_WIDTH : ℤ := 30

/-- Grid height constant from `robot.py` (`GRID_HEIGHT = 20`). -/
def GRID_HEIGHT : ℤ := 20

/-- A grid cell `(x, y)`. -/
abbrev Pos := ℤ × ℤ

/-- The four movement directions of the game. -/
inductive Direction where
  | up
  | down
  | left
  | right
deriving DecidableEq

/-- The unit delta of each direction, from the `directions` dict literal in
`calculate_move`: `up ↦ (0, -1)`, `down ↦ (0, 1)`, `left ↦ (-1, 0)`,
`right ↦ (1, 0)`. -/
def Direction.delta : Direction → ℤ × ℤ
  | .up => (0, -1)
  | .down => (0, 1)
  | .left => (-1, 0)
  | .right => (1, 0)

/-- The `opposites` dict of `calculate_move`: each direction's reversal. -/
def opposites : Direction → Direction
  | .up => .down
  | .down => .up
  | .left => .right
  | .right => .left

/-- The fixed iteration order of the `directions` dict literal in
`calculate_move` (Python dicts preserve insertion order): up, down, left,
right. -/
def directions : List Direction :=
  [Direction.up, Direction.down, Direction.left, Direction.right]

/-- One player's snake as reported in a `state` message: `body` (head first)
and `direction`.  The direction is optional because `calculate_move` reads it
with `my_snake.get("direction", "right")`, defaulting to right. -/
structure SnakeView where
  body : List Pos
  direction : Option Direction
deriving DecidableEq

/-- One server snapshot (the `game` field of a `state` message): the
`running` flag, the snake of each player id, and the optional food cell.
Python keys the `snakes` dict by the string form of the numeric player id;
the model keys the association list by the id itself. -/
structure Snapshot where
  running : Bool
  snakes : List (Nat × SnakeView)
  food : Option Pos
deriving DecidableEq

/-- The set of dangerous cells built at the top of `calculate_move`: every
body segment of every snake in the snapshot.  The Python `set` is modelled
as the concatenated list, used only through membership. -/
def dangerous_cells (gs : Snapshot) : List Pos :=
  (gs.snakes.map (fun s => s.2.body)).flatten

/-- `is_safe(x, y)` from `calculate_move`: false off-grid, false on a
dangerous cell, true otherwise. -/
def is_safe (dangerous : List Pos) (x y : ℤ) : Bool :=
  if x < 0 ∨ GRID_WIDTH ≤ x ∨ y < 0 ∨ GRID_HEIGHT ≤ y then false
  else if (x, y) ∈ dangerous then false
  else true

/-- The four neighbor offsets iterated by `count_safe_neighbors`. -/
def neighborDeltas : List (ℤ × ℤ) :=
  [(0, -1), (0, 1), (-1, 0), (1, 0)]

/-- `count_safe_neighbors(x, y)` from `calculate_move`: how many of the four
neighbors of `(x, y)` are safe. -/
def count_safe_neighbors (dangerous : List Pos) (x y : ℤ) : ℕ :=
  (neighborDeltas.filter (fun d => is_safe dangerous (x + d.1) (y + d.2))).length

/-- A candidate entry of the `safe_moves` list in `calculate_move`:
the direction together with the resulting head cell. -/
structure Move where
  direction : Direction
  x : ℤ
  y : ℤ
deriving DecidableEq

/-- The first pass of `calculate_move`: every non-reversing direction, in the
fixed enumeration order, whose resulting head cell is safe. -/
def safe_moves (dangerous : List Pos) (head : Pos) (current_dir : Direction) : List Move :=
  directions.filterMap fun d =>
    if d = opposites current_dir then none
    else
      let new_x := head.1 + d.delta.1
      let new_y := head.2 + d.delta.2
      if is_safe dangerous new_x new_y then
        some { direction := d, x := new_x, y := new_y }
      else none

/-- The score of one safe candidate, from the evaluation loop of
`calculate_move`: food bonus 1000, escape routes × 50, food-distance term
× 10, edge-distance term × 5, minus a random penalty with probability
`(10 - difficulty) / 20`. -/
def score_move (dangerous : List Pos) (food : Option Pos) (difficulty : ℤ)
    (draw : ℚ) (penalty : ℤ) (m : Move) : ℤ :=
  let food_bonus : ℤ :=
    match food with
    | some f => if m.x = f.1 ∧ m.y = f.2 then 1000 else 0
    | none => 0
  let escape_routes : ℤ := (count_safe_neighbors dangerous m.x m.y : ℤ)
  let food_term : ℤ :=
    match food with
    | some f => (GRID_WIDTH + GRID_HEIGHT - (|m.x - f.1| + |m.y - f.2|)) * 10
    | none => 0
  let edge_dist : ℤ := min (min m.x (GRID_WIDTH - 1 - m.x)) (min m.y (GRID_HEIGHT - 1 - m.y))
  let base := food_bonus + escape_routes * 50 + food_term + edge_dist * 5
  if draw < ((10 : ℚ) - (difficulty : ℚ)) / 20 then base - penalty else base

/-- The scored candidate list: each safe move paired with its score, the
random oracles consumed in iteration order starting at index `i`. -/
def scored_moves (dangerous : List Pos) (food : Option Pos) (difficulty : ℤ)
    (draws : ℕ → ℚ) (pens : ℕ → ℤ) : ℕ → List Move → List (Direction × ℤ)
  | _, [] => []
  | i, m :: ms =>
      (m.direction, score_move dangerous food difficulty (draws i) (pens i) m)
        :: scored_moves dangerous food difficulty draws pens (i + 1) ms

/-- One step of the best-candidate fold of `calculate_move`: replace the
running best exactly when the new score is strictly greater
(`if score > best_score`). -/
def better (best : Option (Direction × ℤ)) (dm : Direction × ℤ) : Option (Direction × ℤ) :=
  match best with
  | none => some dm
  | some b => if b.2 < dm.2 then some dm else some b

/-- The selection loop of `calculate_move`: starting from
`best_score = -inf, best_dir = None`, keep the first strictly-greatest-scoring
candidate.  (`none` plays the role of `-inf`: the first candidate always
replaces it, since every integer exceeds `-inf`.) -/
def pick_best (l : List (Direction × ℤ)) : Option (Direction × ℤ) :=
  l.foldl better none

/-- The direction of the selected best candidate, `best_dir` at the final
`return` of `calculate_move`. -/
def pick_best_dir (l : List (Direction × ℤ)) : Option Direction :=
  (pick_best l).map Prod.fst

/-- The body of `calculate_move` after the snake and its head have been
extracted: build the safe-move list; if it is empty fall back to the first
non-reversing direction (else the current direction itself); otherwise score
every safe move and return the best. -/
def choose_move (difficulty : ℤ) (draws : ℕ → ℚ) (pens : ℕ → ℤ)
    (dangerous : List Pos) (food : Option Pos) (head : Pos)
    (current_dir : Direction) : Option Direction :=
  let moves := safe_moves dangerous head current_dir
  if moves.isEmpty then
    match directions.find? (fun d => decide (d ≠ opposites current_dir)) with
    | some d => some d
    | none => some current_dir
  else
    pick_best_dir (scored_moves dangerous food difficulty draws pens 0 moves)

/-- `RobotPlayer.calculate_move`: returns `none` when there is no snapshot,
no snake recorded under the stored player id, or the snake has no body;
otherwise chooses a move from the snapshot.  The Python lookup
`snakes.get(str(self.player_id))` finds nothing when `player_id` is `None`,
modelled by the `Option.bind`. -/
def calculate_move (player_id : Option ℕ) (difficulty : ℤ)
    (draws : ℕ → ℚ) (pens : ℕ → ℤ) : Option Snapshot → Option Direction
  | none => none
  | some gs =>
      match player_id.bind (fun pid => gs.snakes.lookup pid) with
      | none => none
      | some sv =>
          match sv.body with
          | [] => none
          | head :: _ =>
              choose_move difficulty draws pens (dangerous_cells gs) gs.food head
                (sv.direction.getD Direction.right)

/-- The mutable fields of `RobotPlayer` that the session logic touches. -/
structure RobotState where
  difficulty : ℤ
  player_id : Option ℕ
  room_id : Option ℕ
  game_state : Option Snapshot
  running : Bool
  wins : ℕ
  games_played : ℕ
deriving DecidableEq

/-- `RobotPlayer.__init__`: difficulty clamped to `[1, 10]`, identity and
snapshot unset, counters zero. -/
def initial_state (difficulty : ℤ) : RobotState :=
  { difficulty := max 1 (min 10 difficulty)
    player_id := none
    room_id := none
    game_state := none
    running := false
    wins := 0
    games_played := 0 }

/-- Decoded inbound messages, one constructor per `type` the handler
recognizes; `other` stands for a decoded object whose `type` matches no
branch (including a missing `type`), which falls through every `elif`.
Field accesses via `data.get(...)` yield `Option` values. -/
inductive Message where
  | joined (player_id : Option ℕ) (room_id : Option ℕ)
  | state (game : Option Snapshot)
  | start
  | gameover (winner : Option ℕ)
  | waiting
  | other
deriving DecidableEq

/-- Whether a message is a `gameover` notification. -/
def Message.isGameover : Message → Bool
  | .gameover _ => true
  | _ => false

/-- Outbound protocol actions.  `ready` carries constant `mode` and `name`
payload fields in the source, elided here; `move` carries the direction. -/
inductive Action where
  | ready
  | move (d : Direction)
deriving DecidableEq

/-- Observable effects of the handler, in emission order: sending an action
over the websocket, or an `asyncio.sleep` of the given number of seconds. -/
inductive Effect where
  | send (a : Action)
  | sleep (seconds : ℕ)
deriving DecidableEq

/-- `RobotPlayer.handle_message`: the state update and emitted effects for
one decoded message.

* `joined`: store (overwrite) `player_id` and `room_id`, send `ready`.
* `state`: store the snapshot; if present and running, compute a move and
  send it when one was computed.
* `start` and `waiting`: print only, no state change and nothing sent.
* `gameover`: increment `games_played`; increment `wins` exactly when the
  `winner` field equals the stored `player_id`; sleep one second, then send
  a fresh `ready`.
* unrecognized `type`: fall through, no state change, nothing sent. -/
def handle_message (st : RobotState) (draws : ℕ → ℚ) (pens : ℕ → ℤ) :
    Message → RobotState × List Effect
  | .joined pid rid =>
      ({ st with player_id := pid, room_id := rid }, [Effect.send Action.ready])
  | .state game =>
      let st2 := { st with game_state := game }
      match game with
      | some gs =>
          if gs.running then
            match calculate_move st2.player_id st2.difficulty draws pens st2.game_state with
            | some d => (st2, [Effect.send (Action.move d)])
            | none => (st2, [])
          else (st2, [])
      | none => (st2, [])
  | .start => (st, [])
  | .gameover winner =>
      ({ st with
          games_played := st.games_played + 1
          wins := if winner = st.player_id then st.wins + 1 else st.wins },
        [Effect.sleep 1, Effect.send Action.ready])
  | .waiting => (st, [])
  | .other => (st, [])

/-- The connection-loss handling of `RobotPlayer.play` (the
`except websockets.ConnectionClosed` / `except Exception` arms together with
the `finally` block): sleep two seconds, clear `running`, and leave every
other field — identity, snapshot, counters — untouched before the loop
reattempts `connect()`. -/
def on_connection_lost (st : RobotState) : RobotState × List Effect :=
  ({ st with running := false }, [Effect.sleep 2])

/-- One inbound websocket text frame as seen by the inner loop of `play`:
either it decodes to an object the handler can field (`decoded`), or
processing it raises (`json.loads` failure, or a decoded non-object on which
`data.get` raises), which the loop treats as a connection-ending error
(`malformed`). -/
inductive Inbound where
  | malformed
  | decoded (m : Message)
deriving DecidableEq

/-- Outcome of one iteration of the inner receive loop of `play`: either the
loop continues consuming the same connection, or the iteration raised and the
session tears the connection down and reconnects. -/
inductive StepOutcome where
  | continues (st : RobotState) (effects : List Effect)
  | reconnects (st : RobotState) (effects : List Effect)
deriving DecidableEq

/-- Whether a loop-step outcome keeps consuming the same connection. -/
def StepOutcome.isContinue : StepOutcome → Bool
  | .continues _ _ => true
  | .reconnects _ _ => false

/-- One iteration of `while self.running: message = await self.ws.recv();
data = json.loads(message); await self.handle_message(data)` together with
its exception handling: a frame whose processing raises lands in the
`except` arm (sleep two seconds, clear `running`, reconnect); a decoded
message is handled and the loop continues on the same connection. -/
def recv_step (st : RobotState) (draws : ℕ → ℚ) (pens : ℕ → ℤ) :
    Inbound → StepOutcome
  | .malformed => .reconnects { st with running := false } [Effect.sleep 2]
  | .decoded m =>
      match handle_message st draws pens m with
      | (st2, effects) => .continues st2 effects

/-! ### Basic lemmas about the move evaluator -/

/-- `is_safe` holds exactly on in-bounds cells outside the dangerous set. -/
lemma is_safe_iff (dangerous : List Pos) (x y : ℤ) :
    is_safe dangerous x y = true ↔
      (0 ≤ x ∧ x < GRID_WIDTH ∧ 0 ≤ y ∧ y < GRID_HEIGHT ∧ (x, y) ∉ dangerous) := by
  unfold is_safe
  split
  · rename_i h
    constructor
    · intro hc; exact Bool.noConfusion hc
    · intro hc
      obtain ⟨h1, h2, h3, h4, -⟩ := hc
      rcases h with h | h | h | h <;> omega
  · rename_i h
    push_neg at h
    obtain ⟨h1, h2, h3, h4⟩ := h
    split
    · rename_i hd
      constructor
      · intro hc; exact Bool.noConfusion hc
      · intro hc; exact absurd hd hc.2.2.2.2
    · rename_i hd
      constructor
      · intro hc; exact ⟨h1, h2, h3, h4, hd⟩
      · intro hc; rfl

/-- A member of `safe_moves` is a non-reversing direction whose resulting
cell is the head plus the direction's delta, and that cell is safe. -/
lemma mem_safe_moves {dangerous : List Pos} {head : Pos} {cd : Direction} {m : Move}
    (h : m ∈ safe_moves dangerous head cd) :
    m.direction ≠ opposites cd ∧
    m.x = head.1 + m.direction.delta.1 ∧
    m.y = head.2 + m.direction.delta.2 ∧
    is_safe dangerous m.x m.y = true := by
  unfold safe_moves at h
  rw [List.mem_filterMap] at h
  obtain ⟨d, _, hd⟩ := h
  by_cases hop : d = opposites cd
  · simp [hop] at hd
  · simp only [if_neg hop] at hd
    by_cases hs : is_safe dangerous (head.1 + d.delta.1) (head.2 + d.delta.2) = true
    · simp only [hs, if_pos] at hd
      cases hd
      exact ⟨hop, rfl, rfl, hs⟩
    · simp [hs] at hd

/-- The scored list has one entry per safe move. -/
lemma scored_moves_length (dangerous : List Pos) (food : Option Pos) (difficulty : ℤ)
    (draws : ℕ → ℚ) (pens : ℕ → ℤ) :
    ∀ (i : ℕ) (ms : List Move),
      (scored_moves dangerous food difficulty draws pens i ms).length = ms.length := by
  intro i ms
  induction ms generalizing i with
  | nil => rfl
  | cons m ms ih => simpa [scored_moves] using ih (i + 1)

/-- Entry `j` of the scored list is move `j` paired with its score, the
random oracles read at index `i + j`. -/
lemma scored_moves_get (dangerous : List Pos) (food : Option Pos) (difficulty : ℤ)
    (draws : ℕ → ℚ) (pens : ℕ → ℤ) :
    ∀ (ms : List Move) (i j : ℕ)
      (hj : j < (scored_moves dangerous food difficulty draws pens i ms).length)
      (hj2 : j < ms.length),
      (scored_moves dangerous food difficulty draws pens i ms).get ⟨j, hj⟩
        = ((ms.get ⟨j, hj2⟩).direction,
            score_move dangerous food difficulty (draws (i + j)) (pens (i + j))
              (ms.get ⟨j, hj2⟩)) := by
  intro ms
  induction ms with
  | nil => intro i j hj hj2; simp at hj2
  | cons m ms ih =>
      intro i j hj hj2
      cases j with
      | zero => simp [scored_moves]
      | succ j =>
          have hj' : j < (scored_moves dangerous food difficulty draws pens (i + 1) ms).length := by
            simpa [scored_moves] using hj
          have hj2' : j < ms.length := by simpa using hj2
          have := ih (i + 1) j hj' hj2'
          simpa [scored_moves, Nat.add_assoc, Nat.add_comm 1 j] using this

/-- Characterization of the selection fold continued from a running best
`b`: either no later candidate strictly beats `b` and the fold keeps `b`, or
the fold returns the first candidate achieving the strict maximum beyond
`b`. -/
lemma foldl_better_some (l : List (Direction × ℤ)) :
    ∀ b : Direction × ℤ,
      (l.foldl better (some b) = some b ∧ ∀ x ∈ l, x.2 ≤ b.2)
      ∨ ∃ i, ∃ hi : i < l.length,
          l.foldl better (some b) = some (l.get ⟨i, hi⟩) ∧
          b.2 < (l.get ⟨i, hi⟩).2 ∧
          (∀ j, ∀ hj : j < l.length, (l.get ⟨j, hj⟩).2 ≤ (l.get ⟨i, hi⟩).2) ∧
          (∀ j, ∀ hj : j < l.length, j < i → (l.get ⟨j, hj⟩).2 < (l.get ⟨i, hi⟩).2) := by
  induction l with
  | nil => intro b; left; exact ⟨rfl, by simp⟩
  | cons a l ih =>
      intro b
      by_cases hba : b.2 < a.2
      · have hstep : (a :: l).foldl better (some b) = l.foldl better (some a) := by
          simp [better, hba]
        rcases ih a with ⟨he, hall⟩ | ⟨i, hi, he, hlt, hmax, hfirst⟩
        · right
          refine ⟨0, by simp, ?_, ?_, ?_, ?_⟩
          · rw [hstep, he]; rfl
          · simpa using hba
          · intro j hj
            cases j with
            | zero => simp
            | succ j =>
                have hj' : j < l.length := by simpa using hj
                simpa using hall (l.get ⟨j, hj'⟩) (l.get_mem _ _)
          · intro j hj hj0; omega
        · right
          refine ⟨i + 1, by simpa using Nat.succ_lt_succ hi, ?_, ?_, ?_, ?_⟩
          · rw [hstep, he]; rfl
          · have : b.2 < a.2 := hba
            simpa using lt_trans this hlt
          · intro j hj
            cases j with
            | zero => simpa using le_of_lt hlt
            | succ j =>
                have hj' : j < l.length := by simpa using hj
                simpa using hmax j hj'
          · intro j hj hji
            cases j with
            | zero => simpa using hlt
            | succ j =>
                have hj' : j < l.length := by simpa using hj
                simpa using hfirst j hj' (by omega)
      · have hstep : (a :: l).foldl better (some b) = l.foldl better (some b) := by
          simp [better, hba]
        have hab : a.2 ≤ b.2 := le_of_not_lt hba
        rcases ih b with ⟨he, hall⟩ | ⟨i, hi, he, hlt, hmax, hfirst⟩
        · left
          refine ⟨by rw [hstep, he], ?_⟩
          intro x hx
          rcases List.mem_cons.mp hx with hx | hx
          · exact hx ▸ hab
          · exact hall x hx
        · right
          refine ⟨i + 1, by simpa using Nat.succ_lt_succ hi, ?_, ?_, ?_, ?_⟩
          · rw [hstep, he]; rfl
          · simpa using hlt
          · intro j hj
            cases j with
            | zero => simpa using le_of_lt (lt_of_le_of_lt hab hlt)
            | succ j =>
                have hj' : j < l.length := by simpa using hj
                simpa using hmax j hj'
          · intro j hj hji
            cases j with
            | zero => simpa using lt_of_le_of_lt hab hlt
            | succ j =>
                have hj' : j < l.length := by simpa using hj
                simpa using hfirst j hj' (by omega)

/-- On a nonempty scored list, the selection fold returns the entry at the
first index achieving the maximum score. -/
lemma pick_best_spec (a : Direction × ℤ) (l : List (Direction × ℤ)) :
    ∃ i, ∃ hi : i < (a :: l).length,
      pick_best (a :: l) = some ((a :: l).get ⟨i, hi⟩) ∧
      (∀ j, ∀ hj : j < (a :: l).length,
        ((a :: l).get ⟨j, hj⟩).2 ≤ ((a :: l).get ⟨i, hi⟩).2) ∧
      (∀ j, ∀ hj : j < (a :: l).length, j < i →
        ((a :: l).get ⟨j, hj⟩).2 < ((a :: l).get ⟨i, hi⟩).2) := by
  have hstep : pick_best (a :: l) = l.foldl better (some a) := rfl
  rcases foldl_better_some l a with ⟨he, hall⟩ | ⟨i, hi, he, hlt, hmax, hfirst⟩
  · refine ⟨0, by simp, ?_, ?_, ?_⟩
    · rw [hstep, he]; rfl
    · intro j hj
      cases j with
      | zero => simp
      | succ j =>
          have hj' : j < l.length := by simpa using hj
          simpa using hall (l.get ⟨j, hj'⟩) (l.get_mem _ _)
    · intro j hj hj0; omega
  · refine ⟨i + 1, by simpa using Nat.succ_lt_succ hi, ?_, ?_, ?_⟩
    · rw [hstep, he]; rfl
    · intro j hj
      cases j with
      | zero => simpa using le_of_lt hlt
      | succ j =>
          have hj' : j < l.length := by simpa using hj
          simpa using hmax j hj'
    · intro j hj hji
      cases j with
      | zero => simpa using hlt
      | succ j =>
          have hj' : j < l.length := by simpa using hj
          simpa using hfirst j hj' (by omega)

/-- The fold returns an element of the list. -/
lemma pick_best_mem {l : List (Direction × ℤ)} {c : Direction × ℤ}
    (h : pick_best l = some c) : c ∈ l := by
  cases l with
  | nil => simp [pick_best] at h
  | cons a l =>
      obtain ⟨i, hi, he, -, -⟩ := pick_best_spec a l
      rw [he] at h
      cases h
      exact (a :: l).get_mem _ _

/-- Directions of the scored list are the directions of the safe moves, in
order. -/
lemma scored_moves_map_fst (dangerous : List Pos) (food : Option Pos) (difficulty : ℤ)
    (draws : ℕ → ℚ) (pens : ℕ → ℤ) :
    ∀ (i : ℕ) (ms : List Move),
      (scored_moves dangerous food difficulty draws pens i ms).map Prod.fst
        = ms.map Move.direction := by
  intro i ms
  induction ms generalizing i with
  | nil => rfl
  | cons m ms ih => simpa [scored_moves] using ih (i + 1)

/-- When the stored player id finds a snake with a nonempty body,
`calculate_move` reduces to `choose_move` on the extracted data. -/
lemma calculate_move_eq_choose (pid : ℕ) (difficulty : ℤ) (draws : ℕ → ℚ) (pens : ℕ → ℤ)
    (gs : Snapshot) (sv : SnakeView) (head : Pos) (rest : List Pos)
    (hsv : gs.snakes.lookup pid = some sv) (hbody : sv.body = head :: rest) :
    calculate_move (some pid) difficulty draws pens (some gs)
      = choose_move difficulty draws pens (dangerous_cells gs) gs.food head
          (sv.direction.getD Direction.right) := by
  have hbind : (some pid).bind (fun p => gs.snakes.lookup p) = some sv := hsv
  simp only [calculate_move, hbind, hbody]

/-- When the mistake draw does not fire, the score is the plain weighted
sum, independent of the penalty oracle. -/
lemma score_move_no_mistake (dangerous : List Pos) (food : Option Pos) (difficulty : ℤ)
    (draw : ℚ) (penalty : ℤ) (m : Move)
    (h : ¬ draw < ((10 : ℚ) - (difficulty : ℚ)) / 20) :
    score_move dangerous food difficulty draw penalty m
      = (match food with
          | some f => if m.x = f.1 ∧ m.y = f.2 then (1000 : ℤ) else 0
          | none => 0)
        + (count_safe_neighbors dangerous m.x m.y : ℤ) * 50
        + (match food with
            | some f => (GRID_WIDTH + GRID_HEIGHT - (|m.x - f.1| + |m.y - f.2|)) * 10
            | none => 0)
        + min (min m.x (GRID_WIDTH - 1 - m.x)) (min m.y (GRID_HEIGHT - 1 - m.y)) * 5 := by
  simp only [score_move, if_neg h]

/-- At most four of the four neighbors are safe. -/
lemma count_safe_neighbors_le (dangerous : List Pos) (x y : ℤ) :
    count_safe_neighbors dangerous x y ≤ 4 := by
  have h := List.length_filter_le
    (fun d : ℤ × ℤ => is_safe dangerous (x + d.1) (y + d.2)) neighborDeltas
  simpa [count_safe_neighbors, neighborDeltas] using h

/-- Score of a safe candidate that lands exactly on the food: at least
1500 (food bonus 1000 plus the distance-zero food term 500; the other two
terms are nonnegative). -/
lemma score_food_lb (dangerous : List Pos) (difficulty : ℤ)
    (draw : ℚ) (penalty : ℤ) (m : Move) (f : Pos)
    (hsafe : is_safe dangerous m.x m.y = true)
    (hfood : m.x = f.1 ∧ m.y = f.2)
    (h : ¬ draw < ((10 : ℚ) - (difficulty : ℚ)) / 20) :
    (1500 : ℤ) ≤ score_move dangerous (some f) difficulty draw penalty m := by
  rw [score_move_no_mistake dangerous (some f) difficulty draw penalty m h]
  obtain ⟨hb1, hb2, hb3, hb4, -⟩ := (is_safe_iff dangerous m.x m.y).mp hsafe
  simp only [GRID_WIDTH, GRID_HEIGHT] at hb2 hb4 ⊢
  have hn : (0 : ℤ) ≤ (count_safe_neighbors dangerous m.x m.y : ℤ) := Int.natCast_nonneg _
  rw [if_pos hfood]
  have habs : |m.x - f.1| + |m.y - f.2| = 0 := by
    rw [hfood.1, hfood.2]
    simp
  rw [habs]
  have hmin : (0 : ℤ) ≤ min (min m.x (30 - 1 - m.x)) (min m.y (20 - 1 - m.y)) := by
    have h1 : (0 : ℤ) ≤ min m.x (30 - 1 - m.x) := le_min hb1 (by omega)
    have h2 : (0 : ℤ) ≤ min m.y (20 - 1 - m.y) := le_min hb3 (by omega)
    exact le_min h1 h2
  nlinarith

/-- Score of a safe candidate that does not land on the food: at most 735
(no food bonus, escape term at most 200, food term at most 490 since the
distance is at least one, edge term at most 45). -/
lemma score_nonfood_ub (dangerous : List Pos) (difficulty : ℤ)
    (draw : ℚ) (penalty : ℤ) (m : Move) (f : Pos)
    (hsafe : is_safe dangerous m.x m.y = true)
    (hfood : ¬ (m.x = f.1 ∧ m.y = f.2))
    (h : ¬ draw < ((10 : ℚ) - (difficulty : ℚ)) / 20) :
    score_move dangerous (some f) difficulty draw penalty m ≤ 735 := by
  rw [score_move_no_mistake dangerous (some f) difficulty draw penalty m h]
  obtain ⟨hb1, hb2, hb3, hb4, -⟩ := (is_safe_iff dangerous m.x m.y).mp hsafe
  simp only [GRID_WIDTH, GRID_HEIGHT] at hb2 hb4 ⊢
  have hn : (count_safe_neighbors dangerous m.x m.y : ℤ) ≤ 4 := by
    exact_mod_cast count_safe_neighbors_le dangerous m.x m.y
  rw [if_neg hfood]
  have hdist : (1 : ℤ) ≤ |m.x - f.1| + |m.y - f.2| := by
    by_contra hc
    push_neg at hc
    have hx0 : |m.x - f.1| = 0 := by
      have := abs_nonneg (m.x - f.1)
      have := abs_nonneg (m.y - f.2)
      omega
    have hy0 : |m.y - f.2| = 0 := by
      have := abs_nonneg (m.x - f.1)
      have := abs_nonneg (m.y - f.2)
      omega
    exact hfood ⟨by have := abs_eq_zero.mp hx0; omega,
                 by have := abs_eq_zero.mp hy0; omega⟩
  have hmin : min (min m.x (30 - 1 - m.x)) (min m.y (20 - 1 - m.y)) ≤ 9 := by
    have h2 : min m.y (20 - 1 - m.y) ≤ 9 := by
      rcases le_or_lt m.y 9 with hy | hy
      · exact le_trans (min_le_left _ _) hy
      · exact le_trans (min_le_right _ _) (by omega)
    exact le_trans (min_le_right _ _) h2
  nlinarith

/-- A `state` message only replaces the stored snapshot: every other field
of the state is untouched, whatever move gets computed. -/
lemma handle_message_state_fst (st : RobotState) (draws : ℕ → ℚ) (pens : ℕ → ℤ)
    (game : Option Snapshot) :
    (handle_message st draws pens (Message.state game)).1 = { st with game_state := game } := by
  unfold handle_message
  cases game with
  | none => rfl
  | some gs =>
      by_cases hr : gs.running = true
      · simp only [hr, if_true]
        split <;> rfl
      · simp only [Bool.not_eq_true] at hr
        simp only [hr, Bool.false_eq_true, if_false]

/-! ### Claim theorems -/

/-- C4: every `gameover` message increments `games_played` by exactly one,
increments `wins` by exactly one iff the message's winner equals the stored
player id, and emits the fixed one-second sleep followed by a fresh `ready`
action; no other handled message type changes `games_played` or `wins`. -/
theorem gameover_updates_metrics (st : RobotState) (draws : ℕ → ℚ) (pens : ℕ → ℤ)
    (m : Message) :
    (∀ w, m = Message.gameover w →
      (handle_message st draws pens m).1.games_played = st.games_played + 1 ∧
      ((handle_message st draws pens m).1.wins = st.wins + 1 ↔ w = st.player_id) ∧
      ((handle_message st draws pens m).1.wins = st.wins ↔ w ≠ st.player_id) ∧
      (handle_message st draws pens m).2 = [Effect.sleep 1, Effect.send Action.ready]) ∧
    (m.isGameover = false →
      (handle_message st draws pens m).1.games_played = st.games_played ∧
      (handle_message st draws pens m).1.wins = st.wins) := by
  constructor
  · intro w hw
    subst hw
    by_cases hwin : w = st.player_id
    · simp [handle_message, hwin]
    · simp [handle_message, hwin]
  · intro hm
    cases m with
    | joined pid rid => exact ⟨rfl, rfl⟩
    | state game =>
        rw [handle_message_state_fst st draws pens game]
        exact ⟨rfl, rfl⟩
    | start => exact ⟨rfl, rfl⟩
    | gameover w => simp [Message.isGameover] at hm
    | waiting => exact ⟨rfl, rfl⟩
    | other => exact ⟨rfl, rfl⟩

/-- C4 witness: a `gameover` whose winner is the stored id bumps both
counters and emits sleep-then-ready. -/
theorem gameover_updates_metrics_witness :
    (handle_message
        { difficulty := 5, player_id := some 1, room_id := some 2, game_state := none,
          running := true, wins := 3, games_played := 7 }
        (fun _ => 0) (fun _ => 0) (Message.gameover (some 1))).1.games_played = 7 + 1 ∧
    (handle_message
        { difficulty := 5, player_id := some 1, room_id := some 2, game_state := none,
          running := true, wins := 3, games_played := 7 }
        (fun _ => 0) (fun _ => 0) (Message.gameover (some 1))).1.wins = 3 + 1 ∧
    (handle_message
        { difficulty := 5, player_id := some 1, room_id := some 2, game_state := none,
          running := true, wins := 3, games_played := 7 }
        (fun _ => 0) (fun _ => 0) (Message.gameover (some 1))).2
      = [Effect.sleep 1, Effect.send Action.ready] := by
  have h := (gameover_updates_metrics
    { difficulty := 5, player_id := some 1, room_id := some 2, game_state := none,
      running := true, wins := 3, games_played := 7 }
    (fun _ => 0) (fun _ => 0) (Message.gameover (some 1))).1 (some 1) rfl
  exact ⟨h.1, h.2.1.mpr rfl, h.2.2.2⟩

/-- C5 counterexample: after a mid-session connection loss the handler of
`play` does not reset the session-local state — with identity and a snapshot
set, all three survive `on_connection_lost`, so they are not restored to
their pre-identity (unset) values before the next connection attempt. -/
theorem connection_lost_counterexample :
    (on_connection_lost
        { difficulty := 5, player_id := some 7, room_id := some 3,
          game_state := some { running := true, snakes := [], food := none },
          running := true, wins := 0, games_played := 0 }).1.player_id ≠ none ∧
    (on_connection_lost
        { difficulty := 5, player_id := some 7, room_id := some 3,
          game_state := some { running := true, snakes := [], food := none },
          running := true, wins := 0, games_played := 0 }).1.room_id ≠ none ∧
    (on_connection_lost
        { difficulty := 5, player_id := some 7, room_id := some 3,
          game_state := some { running := true, snakes := [], food := none },
          running := true, wins := 0, games_played := 0 }).1.game_state ≠ none := by
  refine ⟨?_, ?_, ?_⟩ <;> decide

/-- C5 (amended): on transport closure or error, `play` only clears the
`running` flag and sleeps two seconds before reconnecting; the stored
identity (`player_id`, `room_id`), the current snapshot (`game_state`) and
the metrics all retain their values from the dead connection. -/
theorem connection_lost_resets_only_running (st : RobotState) :
    (on_connection_lost st).1.player_id = st.player_id ∧
    (on_connection_lost st).1.room_id = st.room_id ∧
    (on_connection_lost st).1.game_state = st.game_state ∧
    (on_connection_lost st).1.wins = st.wins ∧
    (on_connection_lost st).1.games_played = st.games_played ∧
    (on_connection_lost st).1.running = false ∧
    (on_connection_lost st).2 = [Effect.sleep 2] :=
  ⟨rfl, rfl, rfl, rfl, rfl, rfl, rfl⟩

/-- C6 counterexample: an inbound frame whose processing raises (it cannot
be decoded) does not let the loop continue on the same connection — the
exception path tears the connection down and reconnects. -/
theorem malformed_message_counterexample :
    (recv_step
        { difficulty := 5, player_id := some 1, room_id := some 2, game_state := none,
          running := true, wins := 0, games_played := 0 }
        (fun _ => 0) (fun _ => 0) Inbound.malformed).isContinue = false := by
  decide

/-- C6 (amended): a message that decodes but matches no handled `type` is
dropped with no state change and the loop continues on the same connection;
an undecodable message instead raises, terminating the inner receive loop,
after which the session sleeps two seconds, clears `running` and reconnects
— identity, snapshot and metrics are otherwise untouched. -/
theorem malformed_vs_unknown_message (st : RobotState) (draws : ℕ → ℚ) (pens : ℕ → ℤ) :
    recv_step st draws pens (Inbound.decoded Message.other) = StepOutcome.continues st [] ∧
    recv_step st draws pens Inbound.malformed
      = StepOutcome.reconnects { st with running := false } [Effect.sleep 2] :=
  ⟨rfl, rfl⟩

/-- C7: a (possibly duplicate) `joined` message overwrites the stored
identity with the latest values and re-sends `ready`, leaving `wins` and
`games_played` unchanged; the handler is total, so no error is raised. -/
theorem joined_overwrites_identity (st : RobotState) (draws : ℕ → ℚ) (pens : ℕ → ℤ)
    (pid rid : Option ℕ) :
    handle_message st draws pens (Message.joined pid rid)
      = ({ st with player_id := pid, room_id := rid }, [Effect.send Action.ready]) ∧
    (handle_message st draws pens (Message.joined pid rid)).1.wins = st.wins ∧
    (handle_message st draws pens (Message.joined pid rid)).1.games_played = st.games_played :=
  ⟨rfl, rfl, rfl⟩

/-- Scored lists agree when the scores of corresponding entries agree. -/
lemma scored_moves_congr (dangerous : List Pos) (food : Option Pos) (difficulty : ℤ)
    (draws1 draws2 : ℕ → ℚ) (pens1 pens2 : ℕ → ℤ)
    (h : ∀ i m, score_move dangerous food difficulty (draws1 i) (pens1 i) m
          = score_move dangerous food difficulty (draws2 i) (pens2 i) m) :
    ∀ (i : ℕ) (ms : List Move),
      scored_moves dangerous food difficulty draws1 pens1 i ms
        = scored_moves dangerous food difficulty draws2 pens2 i ms := by
  intro i ms
  induction ms generalizing i with
  | nil => rfl
  | cons m ms ih => simp [scored_moves, h i m, ih (i + 1)]

/-- C9: at difficulty 10 the mistake probability `(10 - difficulty) / 20`
is zero, and `random.random()` never returns a negative number, so the
penalty branch is never taken: the move computed from a given snapshot,
player id and current direction is independent of the random oracles. -/
theorem calculate_move_deterministic_at_ten (player_id : Option ℕ) (gst : Option Snapshot)
    (draws1 draws2 : ℕ → ℚ) (pens1 pens2 : ℕ → ℤ)
    (h1 : ∀ i, 0 ≤ draws1 i) (h2 : ∀ i, 0 ≤ draws2 i) :
    calculate_move player_id 10 draws1 pens1 gst = calculate_move player_id 10 draws2 pens2 gst := by
  have hchance : ((10 : ℚ) - ((10 : ℤ) : ℚ)) / 20 = 0 := by norm_num
  have hscore : ∀ (dangerous : List Pos) (food : Option Pos) (i : ℕ) (m : Move),
      score_move dangerous food 10 (draws1 i) (pens1 i) m
        = score_move dangerous food 10 (draws2 i) (pens2 i) m := by
    intro dangerous food i m
    rw [score_move_no_mistake dangerous food 10 (draws1 i) (pens1 i) m
        (by rw [hchance]; exact not_lt.mpr (h1 i)),
      score_move_no_mistake dangerous food 10 (draws2 i) (pens2 i) m
        (by rw [hchance]; exact not_lt.mpr (h2 i))]
  cases gst with
  | none => rfl
  | some gs =>
      cases hlk : player_id.bind (fun pid => gs.snakes.lookup pid) with
      | none => simp only [calculate_move, hlk]
      | some sv =>
          cases hb : sv.body with
          | nil => simp only [calculate_move, hlk, hb]
          | cons head rest =>
              simp only [calculate_move, hlk, hb, choose_move]
              by_cases hmv : (safe_moves (dangerous_cells gs) head
                  (sv.direction.getD Direction.right)).isEmpty = true
              · simp only [hmv, if_true]
              · simp only [hmv, if_false]
                rw [scored_moves_congr (dangerous_cells gs) gs.food 10
                    draws1 draws2 pens1 pens2 (hscore (dangerous_cells gs) gs.food) 0]

/-- C9 witness: two different oracle pairs at difficulty 10 on a concrete
snapshot give the same move. -/
theorem calculate_move_deterministic_at_ten_witness :
    calculate_move (some 1) 10 (fun _ => 0) (fun _ => 7)
        (some { running := true,
                snakes := [(1, { body := [((5 : ℤ), (5 : ℤ))], direction := some Direction.right })],
                food := some ((10 : ℤ), (5 : ℤ)) })
      = calculate_move (some 1) 10 (fun _ => (9 : ℚ) / 10) (fun _ => 30)
        (some { running := true,
                snakes := [(1, { body := [((5 : ℤ), (5 : ℤ))], direction := some Direction.right })],
                food := some ((10 : ℤ), (5 : ℤ)) }) := by
  exact calculate_move_deterministic_at_ten (some 1)
    (some { running := true,
            snakes := [(1, { body := [((5 : ℤ), (5 : ℤ))], direction := some Direction.right })],
            food := some ((10 : ℤ), (5 : ℤ)) })
    (fun _ => 0) (fun _ => (9 : ℚ) / 10) (fun _ => 7) (fun _ => 30)
    (fun _ => le_refl 0) (fun _ => by norm_num)

/-- C10: a candidate cell outside the grid is rejected rather than wrapped:
`is_safe` is false off-grid, every safe move's cell is in bounds, and the
escape-route count tallies exactly the in-bounds unoccupied neighbors. -/
theorem out_of_grid_rejected :
    (∀ (dangerous : List Pos) (x y : ℤ),
        x < 0 ∨ GRID_WIDTH ≤ x ∨ y < 0 ∨ GRID_HEIGHT ≤ y →
          is_safe dangerous x y = false) ∧
    (∀ (dangerous : List Pos) (head : Pos) (cd : Direction) (m : Move),
        m ∈ safe_moves dangerous head cd →
          0 ≤ m.x ∧ m.x < GRID_WIDTH ∧ 0 ≤ m.y ∧ m.y < GRID_HEIGHT) ∧
    (∀ (dangerous : List Pos) (x y : ℤ),
        count_safe_neighbors dangerous x y
          = (neighborDeltas.filter (fun d =>
              decide (0 ≤ x + d.1 ∧ x + d.1 < GRID_WIDTH ∧ 0 ≤ y + d.2 ∧
                y + d.2 < GRID_HEIGHT ∧ (x + d.1, y + d.2) ∉ dangerous))).length) := by
  refine ⟨?_, ?_, ?_⟩
  · intro dangerous x y h
    unfold is_safe
    rw [if_pos h]
  · intro dangerous head cd m hm
    have hs := (mem_safe_moves hm).2.2.2
    have := (is_safe_iff dangerous m.x m.y).mp hs
    exact ⟨this.1, this.2.1, this.2.2.1, this.2.2.2.1⟩
  · intro dangerous x y
    unfold count_safe_neighbors
    congr 1
    apply List.filter_congr
    intro d hd
    by_cases hP : (0 ≤ x + d.1 ∧ x + d.1 < GRID_WIDTH ∧ 0 ≤ y + d.2 ∧
        y + d.2 < GRID_HEIGHT ∧ (x + d.1, y + d.2) ∉ dangerous)
    · rw [(is_safe_iff dangerous (x + d.1) (y + d.2)).mpr hP, decide_eq_true hP]
    · have h1 : is_safe dangerous (x + d.1) (y + d.2) = false := by
        cases hb : is_safe dangerous (x + d.1) (y + d.2) with
        | false => rfl
        | true => exact absurd ((is_safe_iff dangerous (x + d.1) (y + d.2)).mp hb) hP
      rw [h1, decide_eq_false hP]

/-- C10 witness: the cell just left of the grid is unsafe even with no
snake on the board. -/
theorem out_of_grid_rejected_witness : is_safe [] (-1) 0 = false :=
  out_of_grid_rejected.1 [] (-1) 0 (Or.inl (by decide))

/-- The scored list of a nonempty safe-move list is nonempty. -/
lemma scored_moves_ne_nil (dangerous : List Pos) (food : Option Pos) (difficulty : ℤ)
    (draws : ℕ → ℚ) (pens : ℕ → ℤ) (ms : List Move) (h : ms ≠ []) :
    scored_moves dangerous food difficulty draws pens 0 ms ≠ [] := by
  intro h0
  have hlen := scored_moves_length dangerous food difficulty draws pens 0 ms
  rw [h0] at hlen
  exact h (List.length_eq_zero.mp hlen.symm)

/-- C1: whenever at least one safe candidate exists, the returned move is a
direction drawn from the safe-move list, hence never the opposite of the
snake's current direction. -/
theorem safe_candidate_never_reverses
    (pid : ℕ) (difficulty : ℤ) (draws : ℕ → ℚ) (pens : ℕ → ℤ)
    (gs : Snapshot) (sv : SnakeView) (head : Pos) (rest : List Pos) (cd : Direction)
    (hsv : gs.snakes.lookup pid = some sv)
    (hbody : sv.body = head :: rest)
    (hcd : sv.direction.getD Direction.right = cd)
    (hne : safe_moves (dangerous_cells gs) head cd ≠ []) :
    ∃ d, calculate_move (some pid) difficulty draws pens (some gs) = some d ∧
      d ≠ opposites cd := by
  rw [calculate_move_eq_choose pid difficulty draws pens gs sv head rest hsv hbody, hcd]
  unfold choose_move
  rw [if_neg (by simpa using hne)]
  have hscne : scored_moves (dangerous_cells gs) gs.food difficulty draws pens 0
      (safe_moves (dangerous_cells gs) head cd) ≠ [] :=
    scored_moves_ne_nil (dangerous_cells gs) gs.food difficulty draws pens
      (safe_moves (dangerous_cells gs) head cd) hne
  obtain ⟨a, l, hl⟩ := List.exists_cons_of_ne_nil hscne
  obtain ⟨i, hi, he, -, -⟩ := pick_best_spec a l
  refine ⟨((a :: l).get ⟨i, hi⟩).1, ?_, ?_⟩
  · rw [hl]
    unfold pick_best_dir
    rw [he]
    rfl
  · have hmem : ((a :: l).get ⟨i, hi⟩).1 ∈ (a :: l).map Prod.fst :=
      List.mem_map_of_mem Prod.fst ((a :: l).get_mem _ _)
    have hmap : List.map Prod.fst (a :: l)
        = (safe_moves (dangerous_cells gs) head cd).map Move.direction := by
      rw [← hl, scored_moves_map_fst]
    rw [hmap] at hmem
    obtain ⟨m, hm, hmd⟩ := List.mem_map.mp hmem
    rw [← hmd]
    exact (mem_safe_moves hm).1

/-- C1 witness: a lone snake at (5,5) heading right has safe candidates, and
the returned move is not the reversal (left). -/
theorem safe_candidate_never_reverses_witness :
    ∃ d, calculate_move (some 1) 5 (fun _ => 0) (fun _ => 0)
        (some { running := true,
                snakes := [(1, { body := [((5 : ℤ), (5 : ℤ))], direction := some Direction.right })],
                food := none })
      = some d ∧ d ≠ opposites Direction.right := by
  exact safe_candidate_never_reverses 1 5 (fun _ => 0) (fun _ => 0)
    { running := true,
      snakes := [(1, { body := [((5 : ℤ), (5 : ℤ))], direction := some Direction.right })],
      food := none }
    { body := [((5 : ℤ), (5 : ℤ))], direction := some Direction.right }
    ((5 : ℤ), (5 : ℤ)) [] Direction.right rfl rfl rfl (by decide)

/-- C2: with zero safe candidates, the returned move is the first
non-reversing direction of the fixed enumeration order up, down, left,
right (concretely: down when heading down, else up), and is never `none`;
the `find?` fallback always succeeds, so the current direction itself is
returned only in the unreachable branch. -/
theorem no_safe_candidate_fallback
    (pid : ℕ) (difficulty : ℤ) (draws : ℕ → ℚ) (pens : ℕ → ℤ)
    (gs : Snapshot) (sv : SnakeView) (head : Pos) (rest : List Pos) (cd : Direction)
    (hsv : gs.snakes.lookup pid = some sv)
    (hbody : sv.body = head :: rest)
    (hcd : sv.direction.getD Direction.right = cd)
    (hempty : safe_moves (dangerous_cells gs) head cd = []) :
    ∃ d, calculate_move (some pid) difficulty draws pens (some gs) = some d ∧
      d ≠ opposites cd ∧
      directions.find? (fun x => decide (x ≠ opposites cd)) = some d ∧
      d = (if cd = Direction.down then Direction.down else Direction.up) := by
  rw [calculate_move_eq_choose pid difficulty draws pens gs sv head rest hsv hbody, hcd]
  unfold choose_move
  rw [if_pos (by simp [hempty])]
  cases cd with
  | up => exact ⟨Direction.up, rfl, by decide, rfl, by decide⟩
  | down => exact ⟨Direction.down, rfl, by decide, rfl, by decide⟩
  | left => exact ⟨Direction.up, rfl, by decide, rfl, by decide⟩
  | right => exact ⟨Direction.up, rfl, by decide, rfl, by decide⟩

/-- C2 witness: a snake at (5,5) heading right, boxed in on the three
non-reversing sides, still gets a move — the doomed first non-reversing
direction up. -/
theorem no_safe_candidate_fallback_witness :
    ∃ d, calculate_move (some 1) 5 (fun _ => 0) (fun _ => 0)
        (some { running := true,
                snakes := [(1, { body := [((5 : ℤ), (5 : ℤ)), ((5 : ℤ), (4 : ℤ)),
                                          ((5 : ℤ), (6 : ℤ)), ((6 : ℤ), (5 : ℤ))],
                                 direction := some Direction.right })],
                food := none })
      = some d ∧ d ≠ opposites Direction.right ∧
      directions.find? (fun x => decide (x ≠ opposites Direction.right)) = some d ∧
      d = (if Direction.right = Direction.down then Direction.down else Direction.up) := by
  exact no_safe_candidate_fallback 1 5 (fun _ => 0) (fun _ => 0)
    { running := true,
      snakes := [(1, { body := [((5 : ℤ), (5 : ℤ)), ((5 : ℤ), (4 : ℤ)),
                                ((5 : ℤ), (6 : ℤ)), ((6 : ℤ), (5 : ℤ))],
                       direction := some Direction.right })],
      food := none }
    { body := [((5 : ℤ), (5 : ℤ)), ((5 : ℤ), (4 : ℤ)),
               ((5 : ℤ), (6 : ℤ)), ((6 : ℤ), (5 : ℤ))],
      direction := some Direction.right }
    ((5 : ℤ), (5 : ℤ)) [((5 : ℤ), (4 : ℤ)), ((5 : ℤ), (6 : ℤ)), ((6 : ℤ), (5 : ℤ))]
    Direction.right rfl rfl rfl (by decide)

/-- On any nonempty scored list the fold selects the first index achieving
the maximum score. -/
lemma pick_best_spec_of_ne_nil (l : List (Direction × ℤ)) (h : l ≠ []) :
    ∃ i, ∃ hi : i < l.length,
      pick_best l = some (l.get ⟨i, hi⟩) ∧
      (∀ j, ∀ hj : j < l.length, (l.get ⟨j, hj⟩).2 ≤ (l.get ⟨i, hi⟩).2) ∧
      (∀ j, ∀ hj : j < l.length, j < i → (l.get ⟨j, hj⟩).2 < (l.get ⟨i, hi⟩).2) := by
  obtain ⟨a, t, rfl⟩ := List.exists_cons_of_ne_nil h
  exact pick_best_spec a t

/-- C8: among the safe candidates the returned direction is the one at the
first index of the scored list achieving the maximal score — every entry
scores no higher, and every earlier entry scores strictly lower (only a
strictly greater score replaces the running best, and the scored list is in
the fixed enumeration order up, down, left, right). -/
theorem first_strict_max_wins
    (pid : ℕ) (difficulty : ℤ) (draws : ℕ → ℚ) (pens : ℕ → ℤ)
    (gs : Snapshot) (sv : SnakeView) (head : Pos) (rest : List Pos) (cd : Direction)
    (hsv : gs.snakes.lookup pid = some sv)
    (hbody : sv.body = head :: rest)
    (hcd : sv.direction.getD Direction.right = cd)
    (hne : safe_moves (dangerous_cells gs) head cd ≠ []) :
    ∃ i, ∃ hi : i < (scored_moves (dangerous_cells gs) gs.food difficulty draws pens 0
        (safe_moves (dangerous_cells gs) head cd)).length,
      calculate_move (some pid) difficulty draws pens (some gs)
        = some (((scored_moves (dangerous_cells gs) gs.food difficulty draws pens 0
            (safe_moves (dangerous_cells gs) head cd)).get ⟨i, hi⟩).1) ∧
      (∀ j, ∀ hj : j < (scored_moves (dangerous_cells gs) gs.food difficulty draws pens 0
          (safe_moves (dangerous_cells gs) head cd)).length,
        ((scored_moves (dangerous_cells gs) gs.food difficulty draws pens 0
            (safe_moves (dangerous_cells gs) head cd)).get ⟨j, hj⟩).2
          ≤ ((scored_moves (dangerous_cells gs) gs.food difficulty draws pens 0
            (safe_moves (dangerous_cells gs) head cd)).get ⟨i, hi⟩).2) ∧
      (∀ j, ∀ hj : j < (scored_moves (dangerous_cells gs) gs.food difficulty draws pens 0
          (safe_moves (dangerous_cells gs) head cd)).length, j < i →
        ((scored_moves (dangerous_cells gs) gs.food difficulty draws pens 0
            (safe_moves (dangerous_cells gs) head cd)).get ⟨j, hj⟩).2
          < ((scored_moves (dangerous_cells gs) gs.food difficulty draws pens 0
            (safe_moves (dangerous_cells gs) head cd)).get ⟨i, hi⟩).2) := by
  rw [calculate_move_eq_choose pid difficulty draws pens gs sv head rest hsv hbody, hcd]
  unfold choose_move
  rw [if_neg (by simpa using hne)]
  obtain ⟨i, hi, he, hmax, hfirst⟩ := pick_best_spec_of_ne_nil
    (scored_moves (dangerous_cells gs) gs.food difficulty draws pens 0
      (safe_moves (dangerous_cells gs) head cd))
    (scored_moves_ne_nil (dangerous_cells gs) gs.food difficulty draws pens
      (safe_moves (dangerous_cells gs) head cd) hne)
  refine ⟨i, hi, ?_, hmax, hfirst⟩
  unfold pick_best_dir
  rw [he]
  rfl

/-- Concrete snake used by the C8 witness. -/
def witnessSnake : SnakeView :=
  { body := [((5 : ℤ), (5 : ℤ))], direction := some Direction.right }

/-- Concrete snapshot used by the C8 witness. -/
def witnessSnap : Snapshot :=
  { running := true, snakes := [(1, witnessSnake)], food := none }

/-- Scored candidate list of the C8 witness snapshot. -/
def witnessScored : List (Direction × ℤ) :=
  scored_moves (dangerous_cells witnessSnap) witnessSnap.food 5 (fun _ => 0) (fun _ => 0) 0
    (safe_moves (dangerous_cells witnessSnap) ((5 : ℤ), (5 : ℤ)) Direction.right)

/-- C8 witness: the concrete boxed-free snapshot has safe candidates and
the returned direction is the first strict maximum of its scored list. -/
theorem first_strict_max_wins_witness :
    ∃ i, ∃ hi : i < witnessScored.length,
      calculate_move (some 1) 5 (fun _ => 0) (fun _ => 0) (some witnessSnap)
        = some ((witnessScored.get ⟨i, hi⟩).1) ∧
      (∀ j, ∀ hj : j < witnessScored.length,
        (witnessScored.get ⟨j, hj⟩).2 ≤ (witnessScored.get ⟨i, hi⟩).2) := by
  obtain ⟨i, hi, he, hmax, -⟩ := first_strict_max_wins 1 5 (fun _ => 0) (fun _ => 0)
    witnessSnap witnessSnake ((5 : ℤ), (5 : ℤ)) [] Direction.right rfl rfl rfl (by decide)
  exact ⟨i, hi, he, hmax⟩

/-- C3: when some safe candidate's resulting cell is the food cell and the
mistake penalty fires on no candidate (as at difficulty 10, where the
mistake probability is zero), the returned direction's resulting head cell
is the food cell: the +1000 bonus plus the distance-zero food term (500)
strictly dominates the largest possible sum for a non-food candidate
(4·50 escape + 49·10 distance + 9·5 edge = 735). -/
theorem immediate_food_capture
    (pid : ℕ) (difficulty : ℤ) (draws : ℕ → ℚ) (pens : ℕ → ℤ)
    (gs : Snapshot) (sv : SnakeView) (head : Pos) (rest : List Pos) (cd : Direction)
    (f : Pos) (fm : Move)
    (hsv : gs.snakes.lookup pid = some sv)
    (hbody : sv.body = head :: rest)
    (hcd : sv.direction.getD Direction.right = cd)
    (hfood : gs.food = some f)
    (hfm : fm ∈ safe_moves (dangerous_cells gs) head cd)
    (hfmx : fm.x = f.1) (hfmy : fm.y = f.2)
    (hnm : ∀ i, ¬ draws i < ((10 : ℚ) - (difficulty : ℚ)) / 20) :
    ∃ d, calculate_move (some pid) difficulty draws pens (some gs) = some d ∧
      head.1 + d.delta.1 = f.1 ∧ head.2 + d.delta.2 = f.2 := by
  have hne : safe_moves (dangerous_cells gs) head cd ≠ [] := List.ne_nil_of_mem hfm
  rw [calculate_move_eq_choose pid difficulty draws pens gs sv head rest hsv hbody, hcd]
  unfold choose_move
  rw [if_neg (by simpa using hne), hfood]
  have hlen := scored_moves_length (dangerous_cells gs) (some f) difficulty draws pens 0
    (safe_moves (dangerous_cells gs) head cd)
  obtain ⟨i, hi, he, hmax, -⟩ := pick_best_spec_of_ne_nil
    (scored_moves (dangerous_cells gs) (some f) difficulty draws pens 0
      (safe_moves (dangerous_cells gs) head cd))
    (scored_moves_ne_nil (dangerous_cells gs) (some f) difficulty draws pens
      (safe_moves (dangerous_cells gs) head cd) hne)
  have hi2 : i < (safe_moves (dangerous_cells gs) head cd).length := hlen ▸ hi
  have hgeti := scored_moves_get (dangerous_cells gs) (some f) difficulty draws pens
    (safe_moves (dangerous_cells gs) head cd) 0 i hi hi2
  obtain ⟨⟨k, hk⟩, hkm⟩ := List.get_of_mem hfm
  have hk2 : k < (scored_moves (dangerous_cells gs) (some f) difficulty draws pens 0
      (safe_moves (dangerous_cells gs) head cd)).length := by
    rw [hlen]; exact hk
  have hgetk := scored_moves_get (dangerous_cells gs) (some f) difficulty draws pens
    (safe_moves (dangerous_cells gs) head cd) 0 k hk2 hk
  have hfmsafe : is_safe (dangerous_cells gs) fm.x fm.y = true := (mem_safe_moves hfm).2.2.2
  have hlb : (1500 : ℤ) ≤ ((scored_moves (dangerous_cells gs) (some f) difficulty draws pens 0
      (safe_moves (dangerous_cells gs) head cd)).get ⟨k, hk2⟩).2 := by
    rw [hgetk, hkm]
    exact score_food_lb (dangerous_cells gs) difficulty (draws (0 + k)) (pens (0 + k)) fm f
      hfmsafe ⟨hfmx, hfmy⟩ (hnm (0 + k))
  have hib : (1500 : ℤ) ≤ ((scored_moves (dangerous_cells gs) (some f) difficulty draws pens 0
      (safe_moves (dangerous_cells gs) head cd)).get ⟨i, hi⟩).2 :=
    le_trans hlb (hmax k hk2)
  have hmem : (safe_moves (dangerous_cells gs) head cd).get ⟨i, hi2⟩
      ∈ safe_moves (dangerous_cells gs) head cd :=
    (safe_moves (dangerous_cells gs) head cd).get_mem i hi2
  have hmisafe : is_safe (dangerous_cells gs)
      ((safe_moves (dangerous_cells gs) head cd).get ⟨i, hi2⟩).x
      ((safe_moves (dangerous_cells gs) head cd).get ⟨i, hi2⟩).y = true :=
    (mem_safe_moves hmem).2.2.2
  have hfoodcell : ((safe_moves (dangerous_cells gs) head cd).get ⟨i, hi2⟩).x = f.1 ∧
      ((safe_moves (dangerous_cells gs) head cd).get ⟨i, hi2⟩).y = f.2 := by
    by_contra hc
    have hub := score_nonfood_ub (dangerous_cells gs) difficulty (draws (0 + i)) (pens (0 + i))
      ((safe_moves (dangerous_cells gs) head cd).get ⟨i, hi2⟩) f hmisafe hc (hnm (0 + i))
    rw [hgeti] at hib
    dsimp only at hib
    omega
  refine ⟨((scored_moves (dangerous_cells gs) (some f) difficulty draws pens 0
      (safe_moves (dangerous_cells gs) head cd)).get ⟨i, hi⟩).1, ?_, ?_, ?_⟩
  · unfold pick_best_dir
    rw [he]
    rfl
  · have hd : ((scored_moves (dangerous_cells gs) (some f) difficulty draws pens 0
        (safe_moves (dangerous_cells gs) head cd)).get ⟨i, hi⟩).1
        = ((safe_moves (dangerous_cells gs) head cd).get ⟨i, hi2⟩).direction := by
      rw [hgeti]
    rw [hd, ← (mem_safe_moves hmem).2.1]
    exact hfoodcell.1
  · have hd : ((scored_moves (dangerous_cells gs) (some f) difficulty draws pens 0
        (safe_moves (dangerous_cells gs) head cd)).get ⟨i, hi⟩).1
        = ((safe_moves (dangerous_cells gs) head cd).get ⟨i, hi2⟩).direction := by
      rw [hgeti]
    rw [hd, ← (mem_safe_moves hmem).2.2.1]
    exact hfoodcell.2

/-- C3 witness: head (5,5) heading right with food at (6,5) at difficulty
10 and a nonnegative draw stream — the returned move lands on the food. -/
theorem immediate_food_capture_witness :
    ∃ d, calculate_move (some 1) 10 (fun _ => 0) (fun _ => 0)
        (some { running := true,
                snakes := [(1, { body := [((5 : ℤ), (5 : ℤ))], direction := some Direction.right })],
                food := some ((6 : ℤ), (5 : ℤ)) })
      = some d ∧
      (5 : ℤ) + d.delta.1 = 6 ∧ (5 : ℤ) + d.delta.2 = 5 := by
  exact immediate_food_capture 1 10 (fun _ => 0) (fun _ => 0)
    { running := true,
      snakes := [(1, { body := [((5 : ℤ), (5 : ℤ))], direction := some Direction.right })],
      food := some ((6 : ℤ), (5 : ℤ)) }
    { body := [((5 : ℤ), (5 : ℤ))], direction := some Direction.right }
    ((5 : ℤ), (5 : ℤ)) [] Direction.right ((6 : ℤ), (5 : ℤ))
    { direction := Direction.right, x := 6, y := 5 }
    rfl rfl rfl rfl (by decide) rfl rfl
    (fun i => by norm_num)

end Copperhead
